import Mathlib

/-!
# Verification of the lineage-partitioning script

Shallow embedding of `vital/models/new_lineages_new_label_study.py`:
the membership derivation `lineages_in_tree`, the dataset-partitioning
closure `get_dataset` (which appends into a module-level `dataset` list),
the `portions` mapping, the sequencer error-profile table, and the
`frag_len` property check that guards the training calls.

Machine reals of the script (split fractions, error rates) are modelled
as rationals; accession paths and lineage names are strings; the Python
slice `xs[:n]` is modelled with its exact semantics, including negative
bounds.
-/

namespace Vital

/-- Python slice `xs[:n]`: for `0 ≤ n` the first `n` elements; for `n < 0`
all elements except the last `-n` (clamped at the empty list). -/
def pySliceTake {α : Type} (n : Int) (xs : List α) : List α :=
  if 0 ≤ n then xs.take n.toNat else xs.take ((xs.length : Int) + n).toNat

/-- `line.split("\t")[0]` of the source: the first tab-separated field of
a line, i.e. the characters before the first tab (the whole line when no
tab occurs, also on an empty line, where Python yields `[""][0] = ""`). -/
def firstField (line : String) : String :=
  String.mk (line.data.takeWhile (fun c => c != '\t'))

/-- The membership-derivation loop of the source: for each line of
`lineages_in_tree.txt`, take the first tab-separated field and append it
to the accumulator exactly when it occurs in the catalog's lineage list
(`lineages_set` in the source). -/
def lineages_in_tree (file_lines : List String) (lineages_set : List String) :
    List String :=
  file_lines.foldl
    (fun acc line =>
      if lineages_set.contains (firstField line) then acc ++ [firstField line]
      else acc)
    []

/-- One iteration of the `for lineage in lineages` loop in `get_dataset`:
a tree member appends its labeled group `(lineage, lookup lineage)` to the
global `dataset` accumulator (first component); a non-member appends the
Python slice `lookup(lineage)[:cap]` to the local `new_lineages`
accumulator (second component).  The source hardcodes `cap = 64`. -/
def get_dataset_step (lookup : String → List String) (cap : Int)
    (tree_set : List String)
    (acc : List (String × List String) × List String) (lineage : String) :
    List (String × List String) × List String :=
  if tree_set.contains lineage then
    (acc.1 ++ [(lineage, lookup lineage)], acc.2)
  else
    (acc.1, acc.2 ++ pySliceTake cap (lookup lineage))

/-- The body of `get_dataset` run from an arbitrary prior state `dataset0`
of the module-level `dataset` list: the loop above over all catalog
lineages, then the sentinel group `("new_lineages", new_lineages)` is
appended and the (global) list is returned. -/
def get_dataset_from (dataset0 : List (String × List String))
    (lineages : List String) (tree_set : List String)
    (lookup : String → List String) (cap : Int) :
    List (String × List String) :=
  let r := lineages.foldl (get_dataset_step lookup cap tree_set) (dataset0, [])
  r.1 ++ [("new_lineages", r.2)]

/-- `get_dataset` as the script first runs it: the module-level `dataset`
list starts out empty (`dataset = []`). -/
def get_dataset (lineages : List String) (tree_set : List String)
    (lookup : String → List String) (cap : Int) :
    List (String × List String) :=
  get_dataset_from [] lineages tree_set lookup cap

/-- Spec-shaped description of the known part of the output: one group per
tree-member lineage, in catalog order, holding the full accession list. -/
def spec_known_groups (lineages : List String) (tree_set : List String)
    (lookup : String → List String) : List (String × List String) :=
  (lineages.filter (fun l => tree_set.contains l)).map (fun l => (l, lookup l))

/-- Spec-shaped description of the lineages that feed the novel class: the
catalog lineages absent from the reference membership, in catalog order. -/
def spec_novel_contributors (lineages : List String) (tree_set : List String) :
    List String :=
  lineages.filter (fun l => !tree_set.contains l)

/-- Spec-shaped description of the sentinel group's accessions: the capped
lists of all non-member lineages, concatenated in catalog order. -/
def spec_novel_accessions (lineages : List String) (tree_set : List String)
    (lookup : String → List String) (cap : Int) : List String :=
  ((spec_novel_contributors lineages tree_set).map
    (fun l => pySliceTake cap (lookup l))).flatten

/-- The loop of `get_dataset` computes exactly the spec-shaped groups and
novel accumulator, appended to whatever the two accumulators held. -/
theorem get_dataset_foldl_eq (lookup : String → List String) (cap : Int)
    (tree_set : List String) (lineages : List String)
    (d0 : List (String × List String)) (nov0 : List String) :
    lineages.foldl (get_dataset_step lookup cap tree_set) (d0, nov0) =
      (d0 ++ spec_known_groups lineages tree_set lookup,
       nov0 ++ spec_novel_accessions lineages tree_set lookup cap) := by
  induction lineages generalizing d0 nov0 with
  | nil => simp [spec_known_groups, spec_novel_contributors, spec_novel_accessions]
  | cons l ls ih =>
    by_cases h : l ∈ tree_set
    · simp [get_dataset_step, h, ih, spec_known_groups, spec_novel_contributors,
        spec_novel_accessions, List.filter_cons]
    · simp [get_dataset_step, h, ih, spec_known_groups, spec_novel_contributors,
        spec_novel_accessions, List.filter_cons]

/-- The output of a `get_dataset` invocation from global state `dataset0`:
the prior state, then the known groups, then the sentinel group. -/
theorem get_dataset_from_eq (dataset0 : List (String × List String))
    (lineages : List String) (tree_set : List String)
    (lookup : String → List String) (cap : Int) :
    get_dataset_from dataset0 lineages tree_set lookup cap =
      dataset0 ++ spec_known_groups lineages tree_set lookup ++
        [("new_lineages", spec_novel_accessions lineages tree_set lookup cap)] := by
  simp [get_dataset_from, get_dataset_foldl_eq]

/-- Specialization to the empty initial state the script starts from. -/
theorem get_dataset_eq (lineages : List String) (tree_set : List String)
    (lookup : String → List String) (cap : Int) :
    get_dataset lineages tree_set lookup cap =
      spec_known_groups lineages tree_set lookup ++
        [("new_lineages", spec_novel_accessions lineages tree_set lookup cap)] := by
  simp [get_dataset, get_dataset_from_eq]

/-- The worked example of the spec: the catalog lookup returning
`["a1","a2","a3"]` for `A`, `["b1"]` for `B`, `["c1","c2","c3"]` for `C`. -/
def exampleLookup : String → List String := fun l =>
  if l = "A" then ["a1", "a2", "a3"]
  else if l = "B" then ["b1"]
  else if l = "C" then ["c1", "c2", "c3"]
  else []

/-- The generalized form of `lineages_in_tree`: fold from any accumulator. -/
theorem lineages_in_tree_foldl (cat : List String) (file_lines : List String)
    (acc : List String) :
    file_lines.foldl
      (fun acc line =>
        if cat.contains (firstField line) then acc ++ [firstField line] else acc)
      acc =
      acc ++ (file_lines.map firstField).filter (fun l => cat.contains l) := by
  induction file_lines generalizing acc with
  | nil => simp
  | cons ln ls ih =>
    by_cases h : firstField ln ∈ cat
    · rw [List.foldl_cons, if_pos (by simpa using h), ih]
      simp [List.filter_cons, h]
    · rw [List.foldl_cons, if_neg (by simpa using h), ih]
      simp [List.filter_cons, h]

/-- The membership list is the catalog-filtered list of first fields. -/
theorem lineages_in_tree_eq (file_lines cat : List String) :
    lineages_in_tree file_lines cat =
      (file_lines.map firstField).filter (fun l => cat.contains l) := by
  have h := lineages_in_tree_foldl cat file_lines []
  simpa [lineages_in_tree] using h

/-- C1: for every catalog, membership set and cap, the partition emits, in
catalog order, one group per reference-tree member holding its full
accession list, and folds the first `cap` accessions of every other
lineage into the final novel accumulator; in particular, on the catalog
`["A","B","C"]`, a reference file whose lines name `A` and `B`, cap 2 and
the example lookup, the output is
`[("A",["a1","a2","a3"]), ("B",["b1"]), ("new_lineages",["c1","c2"])]`. -/
theorem c1_partition_groups_catalog_order :
    (∀ (lineages tree_set : List String) (lookup : String → List String)
        (cap : Int),
      get_dataset lineages tree_set lookup cap =
        spec_known_groups lineages tree_set lookup ++
          [("new_lineages", spec_novel_accessions lineages tree_set lookup cap)]) ∧
    get_dataset ["A", "B", "C"]
        (lineages_in_tree ["A\tnode1", "B\tnode2"] ["A", "B", "C"])
        exampleLookup 2 =
      [("A", ["a1", "a2", "a3"]), ("B", ["b1"]),
       ("new_lineages", ["c1", "c2"])] := by
  exact ⟨get_dataset_eq, by decide⟩

/-- C6 counterexample: the module-level `dataset` list persists across
invocations, so a second call of `get_dataset` with inputs identical to
the first returns a different (longer) group list than the first call. -/
theorem c6_reinvocation_differs :
    get_dataset_from (get_dataset ["A"] [] exampleLookup 64) ["A"] []
        exampleLookup 64 ≠
      get_dataset ["A"] [] exampleLookup 64 := by
  decide

/-- C6 (amended): a single invocation is a deterministic pure function of
the catalog, membership, cap and the prior global `dataset` state: from
state `d0` it returns `d0` followed by the freshly computed group list.
State therefore is carried across invocations: re-invocation from the
state left by a first call appends the groups a second time instead of
reproducing the first output. -/
theorem c6_invocation_appends_to_global_state
    (d0 : List (String × List String)) (lineages tree_set : List String)
    (lookup : String → List String) (cap : Int) :
    get_dataset_from d0 lineages tree_set lookup cap =
      d0 ++ get_dataset lineages tree_set lookup cap := by
  simp [get_dataset_from_eq, get_dataset_eq]

/-- C7 counterexample: the code validates nothing about the cap; at cap 0
(and at a negative cap) it still produces a group list and raises no
error — with cap 0 a non-member lineage contributes no accessions, and
with cap -1 Python slicing contributes all but its last accession. -/
theorem c7_zero_cap_produces_groups :
    get_dataset ["C"] [] exampleLookup 0 = [("new_lineages", [])] ∧
    get_dataset ["C"] [] exampleLookup (-1) =
      [("new_lineages", ["c1", "c2"])] := by
  exact ⟨by decide, by decide⟩

/-- C7 (amended): the partition applies the cap by Python slicing with no
validation (the script hardcodes cap 64): with cap 0 every non-member
lineage contributes an empty list, so the novel group is empty, and with
a negative cap `-k` the slice keeps all accessions except the last `k`;
in no case is an error raised. -/
theorem c7_no_cap_validation :
    (∀ (lineages tree_set : List String) (lookup : String → List String),
      get_dataset lineages tree_set lookup 0 =
        spec_known_groups lineages tree_set lookup ++
          [("new_lineages", [])]) ∧
    (∀ (k : Int), k < 0 → ∀ (xs : List String),
      pySliceTake k xs = xs.take (xs.length - (-k).toNat)) := by
  constructor
  · intro lineages tree_set lookup
    rw [get_dataset_eq]
    simp [spec_novel_accessions, pySliceTake]
  · intro k hk xs
    rw [pySliceTake, if_neg (by omega)]
    congr 1
    omega

/-- Witness for the amended C7 at a concrete negative cap. -/
theorem c7_no_cap_validation_witness :
    pySliceTake (-1) (["x", "y"] : List String) = ["x"] := by
  have h := c7_no_cap_validation.2 (-1) (by norm_num) ["x", "y"]
  simpa using h

/-- C5: the membership derivation reads the file line by line, takes the
first tab-separated field, and retains it exactly when it occurs in the
catalog (first conjunct); a duplicate line for the same lineage name does
not change the resulting membership set, tested — as in the source's
`set(lineages_in_tree)` — by `contains` (second conjunct); and a line
whose lineage name is absent from the catalog is silently dropped,
without an error (third conjunct). -/
theorem c5_membership_derivation
    (file_lines pre post : List String) (ln : String) (cat : List String)
    (x : String) :
    lineages_in_tree file_lines cat =
      (file_lines.map firstField).filter (fun l => cat.contains l) ∧
    ((lineages_in_tree (pre ++ ln :: ln :: post) cat).contains x =
      (lineages_in_tree (pre ++ ln :: post) cat).contains x) ∧
    (cat.contains (firstField ln) = false →
      lineages_in_tree (pre ++ ln :: post) cat =
        lineages_in_tree (pre ++ post) cat) := by
  refine ⟨lineages_in_tree_eq _ _, ?_, ?_⟩
  · rw [lineages_in_tree_eq, lineages_in_tree_eq]
    simp only [List.elem_eq_mem]
    refine decide_eq_decide.mpr ?_
    simp only [List.mem_filter, List.mem_map, List.mem_append, List.mem_cons]
    constructor
    · rintro ⟨⟨l, hl, rfl⟩, hc⟩
      exact ⟨⟨l, by tauto, rfl⟩, hc⟩
    · rintro ⟨⟨l, hl, rfl⟩, hc⟩
      exact ⟨⟨l, by tauto, rfl⟩, hc⟩
  · intro h
    have h' : firstField ln ∉ cat := by simpa using h
    rw [lineages_in_tree_eq, lineages_in_tree_eq]
    simp [List.filter_cons, h']

/-- Witness for C5 at a concrete file: a line naming a lineage outside
the catalog contributes nothing to the derived membership. -/
theorem c5_membership_derivation_witness :
    lineages_in_tree ["A\tn1", "Z\tn2"] ["A", "B"] =
      lineages_in_tree ["A\tn1"] ["A", "B"] := by
  have h :=
    (c5_membership_derivation ["A\tn1", "Z\tn2"] ["A\tn1"] [] "Z\tn2"
      ["A", "B"] "A").2.2 (by decide)
  simpa using h

/-- The labels of the known part of the output are exactly the tree-member
lineages in catalog order. -/
theorem spec_known_groups_labels (lineages tree_set : List String)
    (lookup : String → List String) :
    (spec_known_groups lineages tree_set lookup).map Prod.fst =
      lineages.filter (fun l => tree_set.contains l) := by
  rw [spec_known_groups, List.map_map]
  exact List.map_id' _

/-- C2: when the catalog's lineage names are pairwise distinct, every
lineage of the catalog lands in exactly one output group: a reference-tree
member labels exactly one of the per-lineage groups and contributes
nothing to the novel class, while a non-member labels none of them and
occurs exactly once among the novel group's contributors. -/
theorem c2_each_lineage_in_exactly_one_group
    (lineages tree_set : List String) (lookup : String → List String)
    (cap : Int) (l : String) (hnd : lineages.Nodup) (hl : l ∈ lineages) :
    (tree_set.contains l = true →
      ((get_dataset lineages tree_set lookup cap).dropLast.map
          Prod.fst).count l = 1 ∧
      (spec_novel_contributors lineages tree_set).count l = 0) ∧
    (tree_set.contains l = false →
      ((get_dataset lineages tree_set lookup cap).dropLast.map
          Prod.fst).count l = 0 ∧
      (spec_novel_contributors lineages tree_set).count l = 1) := by
  have hdl : (get_dataset lineages tree_set lookup cap).dropLast.map
      Prod.fst = lineages.filter (fun a => tree_set.contains a) := by
    rw [get_dataset_eq]
    have h2 : (spec_known_groups lineages tree_set lookup ++
        [("new_lineages", spec_novel_accessions lineages tree_set lookup
          cap)]).dropLast = spec_known_groups lineages tree_set lookup := by
      simp
    rw [h2, spec_known_groups_labels]
  constructor
  · intro hm
    constructor
    · rw [hdl, List.count_filter hm]
      exact List.count_eq_one_of_mem hnd hl
    · apply List.count_eq_zero_of_not_mem
      intro hmem
      rw [spec_novel_contributors, List.mem_filter] at hmem
      simp at hmem
      exact hmem.2 (by simpa using hm)
  · intro hm
    constructor
    · rw [hdl]
      apply List.count_eq_zero_of_not_mem
      intro hmem
      rw [List.mem_filter, hm] at hmem
      exact Bool.false_ne_true hmem.2
    · rw [spec_novel_contributors, List.count_filter (by simpa using hm)]
      exact List.count_eq_one_of_mem hnd hl

/-- Witness for C2: in the worked example, lineage `A` labels exactly one
group and does not contribute to the novel class. -/
theorem c2_each_lineage_in_exactly_one_group_witness :
    ((get_dataset ["A", "B", "C"] ["A", "B"] exampleLookup 2).dropLast.map
        Prod.fst).count "A" = 1 ∧
    (spec_novel_contributors ["A", "B", "C"] ["A", "B"]).count "A" = 0 := by
  exact (c2_each_lineage_in_exactly_one_group ["A", "B", "C"] ["A", "B"]
    exampleLookup 2 "A" (by decide) (by decide)).1 (by decide)

/-- C3: a non-member lineage contributes `take cap` of its catalog-ordered
accession list to the novel group — its contribution occurs contiguously
inside the sentinel group's accessions (which `get_dataset` emits last);
when the lineage has at most `cap` accessions that is all of them, when it
has more it is exactly `cap` of them, and in either case the contribution
is an initial segment (a left-most chunk) of the accession list, not a
sample from elsewhere in it. -/
theorem c3_nonmember_capped_contribution
    (lineages tree_set : List String) (lookup : String → List String)
    (cap : Nat) (l : String) (hl : l ∈ lineages)
    (hnm : tree_set.contains l = false) :
    (get_dataset lineages tree_set lookup (cap : Int)).getLast? =
      some ("new_lineages",
        spec_novel_accessions lineages tree_set lookup (cap : Int)) ∧
    ((lookup l).take cap) <:+:
      spec_novel_accessions lineages tree_set lookup (cap : Int) ∧
    ((lookup l).length ≤ cap → (lookup l).take cap = lookup l) ∧
    (cap < (lookup l).length → ((lookup l).take cap).length = cap) ∧
    (lookup l).take cap <+: lookup l := by
  refine ⟨by rw [get_dataset_eq]; simp, ?_, ?_, ?_, ?_⟩
  · have hcl : l ∈ spec_novel_contributors lineages tree_set := by
      rw [spec_novel_contributors, List.mem_filter]
      exact ⟨hl, by simpa using hnm⟩
    have hchunk : pySliceTake (cap : Int) (lookup l) = (lookup l).take cap := by
      rw [pySliceTake, if_pos (Int.natCast_nonneg cap)]
      simp
    have hmem : (lookup l).take cap ∈
        (spec_novel_contributors lineages tree_set).map
          (fun a => pySliceTake (cap : Int) (lookup a)) := by
      rw [← hchunk]
      exact List.mem_map_of_mem _ hcl
    exact List.infix_of_mem_flatten hmem
  · intro h
    exact List.take_of_length_le h
  · intro h
    rw [List.length_take]
    exact min_eq_left (le_of_lt h)
  · exact List.take_prefix cap (lookup l)

/-- Witness for C3: lineage `C` is not in the tree; its first two
accessions sit contiguously in the novel accessions and number exactly
the cap. -/
theorem c3_nonmember_capped_contribution_witness :
    ((exampleLookup "C").take 2) <:+:
      spec_novel_accessions ["C"] [] exampleLookup ((2 : Nat) : Int) ∧
    ((exampleLookup "C").take 2).length = 2 := by
  have h := c3_nonmember_capped_contribution ["C"] [] exampleLookup 2 "C"
    (by decide) (by decide)
  exact ⟨h.2.1, h.2.2.2.1 (by decide)⟩

/-- C4 counterexample: nothing stops a catalog lineage from being named
`"new_lineages"`; when such a lineage is a tree member the output carries
two groups labeled `"new_lineages"`, so "exactly one group labeled
new_lineages" fails as a universal statement. -/
theorem c4_two_sentinel_labels :
    (get_dataset ["new_lineages"] ["new_lineages"] exampleLookup 64).countP
      (fun g => g.1 == "new_lineages") = 2 := by
  decide

/-- C4 (amended): the appended sentinel group is always present and last —
with an empty accession list, and without an error, when every catalog
lineage is a tree member — and it is the only group labeled
`"new_lineages"` provided no catalog lineage itself bears that name. -/
theorem c4_sentinel_group_always_last
    (lineages tree_set : List String) (lookup : String → List String)
    (cap : Int) :
    (get_dataset lineages tree_set lookup cap).getLast? =
      some ("new_lineages",
        spec_novel_accessions lineages tree_set lookup cap) ∧
    ((∀ l ∈ lineages, l ≠ "new_lineages") →
      (get_dataset lineages tree_set lookup cap).countP
        (fun g => g.1 == "new_lineages") = 1) ∧
    ((∀ l ∈ lineages, tree_set.contains l = true) →
      spec_novel_accessions lineages tree_set lookup cap = []) := by
  refine ⟨by rw [get_dataset_eq]; simp, ?_, ?_⟩
  · intro h
    rw [get_dataset_eq, List.countP_append]
    have h1 : (spec_known_groups lineages tree_set lookup).countP
        (fun g => g.1 == "new_lineages") = 0 := by
      rw [spec_known_groups, List.countP_map]
      show (lineages.filter (fun a => tree_set.contains a)).count
        "new_lineages" = 0
      apply List.count_eq_zero_of_not_mem
      intro hmem
      rw [List.mem_filter] at hmem
      exact h _ hmem.1 rfl
    rw [h1]
    simp [List.countP_cons]
  · intro h
    have hc : spec_novel_contributors lineages tree_set = [] := by
      rw [spec_novel_contributors, List.filter_eq_nil_iff]
      intro a ha
      simpa using h a ha
    rw [spec_novel_accessions, hc]
    simp

/-- Witness for the amended C4: with the single lineage `A` in the tree,
the sentinel group is the unique `"new_lineages"` group and its accession
list is empty. -/
theorem c4_sentinel_group_always_last_witness :
    (get_dataset ["A"] ["A"] exampleLookup 64).countP
      (fun g => g.1 == "new_lineages") = 1 ∧
    spec_novel_accessions ["A"] ["A"] exampleLookup 64 = [] := by
  have h := c4_sentinel_group_always_last ["A"] ["A"] exampleLookup 64
  exact ⟨h.2.1 (by decide), h.2.2 (by decide)⟩

/-- C9 counterexample: with a tree-member catalog lineage literally named
`"new_lineages"`, the output's labels are not pairwise unique. -/
theorem c9_duplicate_labels :
    ¬ (((get_dataset ["new_lineages"] ["new_lineages"] exampleLookup
        64).map Prod.fst).Nodup) := by
  decide

/-- C9 (amended): the output's labels are pairwise unique whenever the
catalog's lineage names are pairwise distinct and none of them is the
sentinel name `"new_lineages"`. -/
theorem c9_labels_nodup
    (lineages tree_set : List String) (lookup : String → List String)
    (cap : Int) (hnd : lineages.Nodup)
    (hs : ∀ l ∈ lineages, l ≠ "new_lineages") :
    ((get_dataset lineages tree_set lookup cap).map Prod.fst).Nodup := by
  rw [get_dataset_eq, List.map_append, spec_known_groups_labels]
  simp only [List.map_cons, List.map_nil]
  refine List.Nodup.append (hnd.filter _) (by simp) ?_
  intro a ha hb
  rw [List.mem_filter] at ha
  rw [List.mem_singleton] at hb
  exact hs a ha.1 hb

/-- Witness for the amended C9: unique labels in the worked example. -/
theorem c9_labels_nodup_witness :
    ((get_dataset ["A", "B", "C"] ["A", "B"] exampleLookup 2).map
      Prod.fst).Nodup := by
  exact c9_labels_nodup ["A", "B", "C"] ["A", "B"] exampleLookup 2
    (by decide) (by decide)

/-- Modelled from the spec: `validate_proportions` is not implemented in
the repository source — the script only builds the `portions` mapping and
passes it straight to the registry's `create_datasets` — so it is modelled
here from §4.1 of the spec: fail with `InvalidConfiguration` if any value
is negative or the values' sum deviates from 1 by more than the fixed
tolerance 1e-6. -/
def validate_proportions (proportions : List (String × ℚ)) :
    Except String Unit :=
  if proportions.any (fun p => decide (p.2 < 0)) then
    Except.error "InvalidConfiguration"
  else if 1/1000000 < |((proportions.map Prod.snd).sum - 1)| then
    Except.error "InvalidConfiguration"
  else Except.ok ()

/-- The `portions` mapping of the script: `trainset` 0.8, `validset` 0.1,
`testset` 0.1, keyed by the `DatasetName` member names. -/
def portions : List (String × ℚ) :=
  [("trainset", 8/10), ("validset", 1/10), ("testset", 1/10)]

/-- C8: `validate_proportions` rejects, with `InvalidConfiguration`, any
mapping holding a negative value and any mapping whose values' sum
deviates from 1 by more than the 1e-6 tolerance; it accepts the script's
`portions` mapping `{trainset: 0.8, validset: 0.1, testset: 0.1}` and
rejects `{train: 0.8, valid: 0.3, test: 0.1}` and
`{train: -0.1, valid: 0.6, test: 0.5}`. -/
theorem c8_proportions_validated :
    (∀ ps : List (String × ℚ), (∃ p ∈ ps, p.2 < 0) →
      validate_proportions ps = Except.error "InvalidConfiguration") ∧
    (∀ ps : List (String × ℚ),
      1/1000000 < |((ps.map Prod.snd).sum - 1)| →
      validate_proportions ps = Except.error "InvalidConfiguration") ∧
    validate_proportions portions = Except.ok () ∧
    validate_proportions
        [("train", 8/10), ("valid", 3/10), ("test", 1/10)] =
      Except.error "InvalidConfiguration" ∧
    validate_proportions
        [("train", -1/10), ("valid", 6/10), ("test", 5/10)] =
      Except.error "InvalidConfiguration" := by
  refine ⟨?_, ?_, ?_, ?_, ?_⟩
  · rintro ps ⟨p, hp, hneg⟩
    rw [validate_proportions,
      if_pos (List.any_eq_true.mpr ⟨p, hp, by simpa using hneg⟩)]
  · intro ps habs
    rw [validate_proportions]
    by_cases h : ps.any (fun p => decide (p.2 < 0))
    · rw [if_pos h]
    · rw [if_neg h, if_pos habs]
  · rw [validate_proportions, if_neg (by norm_num [portions]),
      if_neg (by norm_num [portions])]
  · rw [validate_proportions, if_neg (by norm_num),
      if_pos (by norm_num [abs_of_nonneg])]
  · rw [validate_proportions, if_pos (by norm_num)]

/-- Witness for C8: a mapping with a negative value is rejected. -/
theorem c8_proportions_validated_witness :
    validate_proportions [("train", -1/2), ("valid", 3/2)] =
      Except.error "InvalidConfiguration" := by
  exact c8_proportions_validated.1 [("train", -1/2), ("valid", 3/2)]
    ⟨("train", -1/2), List.mem_cons_self _ _, by norm_num⟩

/-- The fragment length constant of the script. -/
def frag_len : ℚ := 288

/-- The sequencer error-profile table of the script, instrument name to
substitution / insertion / deletion rates. -/
def sequencer_instrument_to_error_profile_map :
    List (String × List (String × ℚ)) :=
  [("ideal",
    [("substitution_rate", 0), ("insertion_rate", 0),
     ("deletion_rate", 0)]),
   ("illumina",
    [("substitution_rate", 5/1000), ("insertion_rate", 1/1000),
     ("deletion_rate", 1/1000)]),
   ("ont",
    [("substitution_rate", 1/100), ("insertion_rate", 4/100),
     ("deletion_rate", 4/100)]),
   ("pacbio",
    [("substitution_rate", 5/1000), ("insertion_rate", 25/1000),
     ("deletion_rate", 25/1000)]),
   ("roche",
    [("substitution_rate", 2/1000), ("insertion_rate", 1/100),
     ("deletion_rate", 1/100)])]

/-- `get_model_name` of the script: rejects an instrument that is not a
key of the error-profile table, else formats the model name. -/
def get_model_name (ml_model_depth : Nat) (coverage : Nat)
    (sequencer_instrument : String) : Except String String :=
  if (sequencer_instrument_to_error_profile_map.map Prod.fst).contains
      sequencer_instrument then
    Except.ok ("vit." ++ toString ml_model_depth ++ "." ++
      toString coverage ++ "x." ++ sequencer_instrument)
  else
    Except.error ("Invalid sequencer instrument: " ++ sequencer_instrument)

/-- A call issued against the external Model Registry by the tail of the
script. -/
inductive RegistryCall : Type
  | updateProps (patch : List (String × ℚ))
  | setBatchSize (n : Nat)
  | train (name : String) (epochs : Nat)
deriving DecidableEq

/-- The error-profile entry for an instrument. -/
def profile_for (instr : String) : Option (List (String × ℚ)) :=
  (sequencer_instrument_to_error_profile_map.find?
    (fun p => p.1 == instr)).map Prod.snd

/-- The tail of the script after dataset creation, as the sequence of
registry calls it issues: the guard `if not 'frag_len' in ds_props:
raise`, then `update_ds_props({'frag_len': frag_len})`, the coverage and
error-profile property update, the batch-size setting, and the training
call.  `ds_props_keys` stands for the keys of `model.get_ds_props()`. -/
def post_dataset_workflow (ds_props_keys : List String)
    (sequencer_instrument : String) : Except String (List RegistryCall) :=
  if ds_props_keys.contains "frag_len" then
    match get_model_name 1 4 sequencer_instrument,
          profile_for sequencer_instrument with
    | Except.ok name, some prof =>
        Except.ok [RegistryCall.updateProps [("frag_len", frag_len)],
                   RegistryCall.updateProps (("coverage", (4 : ℚ)) :: prof),
                   RegistryCall.setBatchSize 512,
                   RegistryCall.train name 1000]
    | Except.error e, _ => Except.error e
    | Except.ok _, none =>
        Except.error ("Invalid sequencer instrument: " ++
          sequencer_instrument)
  else
    Except.error "No fragment length exist in the dataset props."

/-- C10: with the script's instrument `"ideal"`, the workflow tail fails
loudly — raising instead of issuing any registry call — whenever the
registry's dataset-property keys lack `frag_len`, and otherwise its first
registry call supplies the fragment length (`frag_len = 288`) while the
training call comes last. -/
theorem c10_frag_len_supplied_before_training (keys : List String) :
    (keys.contains "frag_len" = false →
      post_dataset_workflow keys "ideal" =
        Except.error "No fragment length exist in the dataset props.") ∧
    (keys.contains "frag_len" = true →
      post_dataset_workflow keys "ideal" =
        Except.ok [RegistryCall.updateProps [("frag_len", frag_len)],
                   RegistryCall.updateProps
                     [("coverage", 4), ("substitution_rate", 0),
                      ("insertion_rate", 0), ("deletion_rate", 0)],
                   RegistryCall.setBatchSize 512,
                   RegistryCall.train "vit.1.4x.ideal" 1000]) := by
  constructor
  · intro h
    rw [post_dataset_workflow, if_neg (by simpa using h)]
  · intro h
    rw [post_dataset_workflow, if_pos h]
    rfl

/-- Witness for C10: a property schema without `frag_len` aborts the
workflow; one with it leads to the training call, preceded by the
fragment-length update. -/
theorem c10_frag_len_supplied_before_training_witness :
    post_dataset_workflow ["coverage"] "ideal" =
      Except.error "No fragment length exist in the dataset props." ∧
    post_dataset_workflow ["frag_len"] "ideal" =
      Except.ok [RegistryCall.updateProps [("frag_len", frag_len)],
                 RegistryCall.updateProps
                   [("coverage", 4), ("substitution_rate", 0),
                    ("insertion_rate", 0), ("deletion_rate", 0)],
                 RegistryCall.setBatchSize 512,
                 RegistryCall.train "vit.1.4x.ideal" 1000] := by
  exact ⟨(c10_frag_len_supplied_before_training ["coverage"]).1 (by decide),
    (c10_frag_len_supplied_before_training ["frag_len"]).2 (by decide)⟩

end Vital
